import Mathlib

/-!
Verification development for the ScholarScan document-review client.

The definitions below are a shallow embedding of the program's data model
and logic:

* `src/unnamed/part_001` (types.ts): `ReviewCategory`, `CritiqueLevel`,
  `CustomCriterion`, `FileData`, `ReviewState`, `AVAILABLE_CRITERIA`;
* `src/unnamed/part_000` (App.tsx): `processFile`, `countWords`,
  `handleCustomCriterionChange`, `toggleCriterion`, `handleReview`
  (its pre-dispatch validation), `reset`, and the `App` initial state;
* `src/services/geminiService.ts`: `allCriteriaNames`, the declared
  `responseSchema`, the response handling after the external call
  (`response.text` check, `JSON.parse`, error classification).

JavaScript strings are Lean `String`s, JS `null`/`undefined` become
`Option`, JSON values are the `JValue` inductive (the possible results of
a successful `JSON.parse`), and the asynchronous pieces are modelled by
their synchronous state effect plus an explicit pending-work result.
-/

/-- `ReviewCategory` enum from types.ts. -/
inductive ReviewCategory
  | UNDERGRADUATE
  | JOURNAL
deriving DecidableEq

/-- `CritiqueLevel` union type from types.ts: 'Supportive' | 'Standard' | 'Ruthless'. -/
inductive CritiqueLevel
  | Supportive
  | Standard
  | Ruthless
deriving DecidableEq

/-- `CustomCriterion` interface from types.ts: `{ id, name, keywords }`. -/
structure CustomCriterion where
  id : String
  name : String
  keywords : String
deriving DecidableEq

/-- The non-null part of `FileData` from types.ts: `{ mimeType, data, name }`
(`data` is the base64-encoded content). An absent file (`null`) is `Option.none`
at use sites. -/
structure FileData where
  mimeType : String
  data : String
  name : String
deriving DecidableEq

/-- `AVAILABLE_CRITERIA` from types.ts: the fixed, ordered catalog of
built-in criteria. -/
def AVAILABLE_CRITERIA : List String :=
  ["Clarity",
   "Argument Structure",
   "Originality",
   "Evidence Use",
   "Grammar & Style",
   "Referencing",
   "Critical Thinking",
   "Adherence to Academic Conventions"]

/-- A JSON value: the possible results of a successful `JSON.parse`. -/
inductive JValue
  | null
  | bool (b : Bool)
  | num (n : Int)
  | str (s : String)
  | arr (elems : List JValue)
  | obj (fields : List (String × JValue))

/-- First-match association-list lookup by string key (the semantics of
reading a JSON object's member). -/
def lookupStr {α : Type} : List (String × α) → String → Option α
  | [], _ => none
  | (k, v) :: rest, key => if k = key then some v else lookupStr rest key

/-- Member access on a JSON value: `some` iff the value is an object with
that field. -/
def JValue.getField (v : JValue) (key : String) : Option JValue :=
  match v with
  | .obj fields => lookupStr fields key
  | _ => none

/-- The shape of the `@google/genai` `Schema` values the source constructs:
a type tag plus (per type) `properties` + `required` for objects, `items`
for arrays, and an optional `enum` list for strings.  `description` fields
carry no constraint and are omitted. -/
inductive SchemaSpec
  | obj (properties : List (String × SchemaSpec)) (required : List String)
  | arr (items : SchemaSpec)
  | str (enumVals : List String)
  | int
  | bool

/-- The `responseSchema` literal from geminiService.ts lines 115-146,
transcribed field by field. Note: the `feedbackPoints` array schema has
`items` but no cardinality constraint of any kind. -/
def responseSchema : SchemaSpec :=
  .obj
    [("summary", .str []),
     ("overallScore", .int),
     ("reviews",
      .arr (.obj
        [("criterion", .str []),
         ("score", .str ["Excellent", "Good", "Fair", "Poor"]),
         ("visualBar", .str []),
         ("feedbackPoints",
          .arr (.obj
            [("point", .str []),
             ("highlight", .str []),
             ("general_feedback", .bool)]
            ["point"]))]
        ["criterion", "score", "visualBar", "feedbackPoints"]))]
    ["summary", "overallScore", "reviews"]

/-- Standard validation of a JSON value against a `SchemaSpec`: type tags
must match, every `required` key must be present, present declared
properties must validate recursively, every array element must validate
against `items`, and a string with a nonempty `enum` must be one of the
enumerated values.  `fuel` bounds the recursion depth and only needs to
exceed the (finite) depth of the schema tree. -/
def validate : Nat → SchemaSpec → JValue → Bool
  | 0, _, _ => false
  | fuel + 1, s, v =>
    match s, v with
    | .obj props reqd, .obj fields =>
        reqd.all (fun r => (lookupStr fields r).isSome) &&
        props.all (fun p =>
          match lookupStr fields p.1 with
          | some fv => validate fuel p.2 fv
          | none => true)
    | .arr itemSchema, .arr elems => elems.all (fun e => validate fuel itemSchema e)
    | .str enumVals, .str s => enumVals.isEmpty || enumVals.contains s
    | .int, .num _ => true
    | .bool, .bool _ => true
    | _, _ => false

/-- Split a character list at every character satisfying `p`, keeping empty
segments (the semantics of JavaScript `String.prototype.split` with a
single-character or single-class separator). -/
def splitCharsWhen (p : Char → Bool) : List Char → List (List Char)
  | [] => [[]]
  | c :: cs =>
    let rest := splitCharsWhen p cs
    if p c then [] :: rest
    else
      match rest with
      | r :: rs => (c :: r) :: rs
      | [] => [[c]]

/-- JavaScript `name.split('.')`. -/
def splitOnDot (s : String) : List String :=
  (splitCharsWhen (fun c => c == '.') s.toList).map (fun l => String.mk l)

/-- JavaScript `String.prototype.trim`: strip whitespace from both ends. -/
def trimStr (s : String) : String :=
  String.mk (((s.toList.dropWhile Char.isWhitespace).reverse.dropWhile
    Char.isWhitespace).reverse)

/-- JavaScript `String.prototype.toLowerCase` (on the ASCII extensions in
play here). -/
def lowerStr (s : String) : String :=
  String.mk (s.toList.map Char.toLower)

/-- Prefix test on character lists (used to model JavaScript
`String.prototype.includes`). -/
def startsWithChars : List Char → List Char → Bool
  | [], _ => true
  | _ :: _, [] => false
  | p :: ps, c :: cs => p = c && startsWithChars ps cs

/-- Substring occurrence test on character lists: does `pat` occur
contiguously in the second list? -/
def hasSubChars (pat : List Char) : List Char → Bool
  | [] => startsWithChars pat []
  | c :: cs => startsWithChars pat (c :: cs) || hasSubChars pat cs

/-- JavaScript `s.includes(pat)`. -/
def strIncludes (s pat : String) : Bool :=
  hasSubChars pat.toList s.toList

/-- The rewritten connection-error message from geminiService.ts line 199. -/
def connectionErrorMessage : String :=
  "Connection error. The file may be too large or the format is not supported. Please try a smaller PDF (under 4MB) or plain text file."

/-- The fallback message from geminiService.ts line 196. -/
def unexpectedErrorMessage : String :=
  "An unexpected error occurred during analysis."

/-- The message thrown when the external call produced no text
(geminiService.ts line 190). -/
def noResponseMessage : String :=
  "No response generated from the model."

/-- The `catch` block of `analyzeDocument` (geminiService.ts lines 194-204):
given the message of the caught error (`""` models a missing/empty
`error.message`, which is falsy in JS), produce the surfaced message. -/
def classifyError (msg : String) : String :=
  if msg ≠ "" ∧ (strIncludes msg "Rpc failed" = true ∨ strIncludes msg "xhr error" = true) then
    connectionErrorMessage
  else if msg ≠ "" then msg
  else unexpectedErrorMessage

/-- The response handling of `analyzeDocument` after the external call
returns (geminiService.ts lines 188-204).  `jsonText` is `response.text`
(`none` models `undefined`); `parse` models `JSON.parse`, returning the
parsed `JValue` or the thrown exception's message.  A missing or empty
text throws "No response generated from the model.", which the `catch`
block classifies; a parse failure is likewise classified; a successful
parse is returned as the feedback with **no field validation**
(`JSON.parse(jsonText) as ReviewFeedback`). -/
def analyzeOutcome (jsonText : Option String) (parse : String → Except String JValue) :
    Except String JValue :=
  match jsonText with
  | none => .error (classifyError noResponseMessage)
  | some t =>
    if t = "" then .error (classifyError noResponseMessage)
    else
      match parse t with
      | .error msg => .error (classifyError msg)
      | .ok v => .ok v

/-- `allCriteriaNames` from geminiService.ts lines 25-28: the selected
built-in criteria (in the order held by the `selectedCriteria` state)
followed by the names of the custom criteria whose trimmed name is
nonempty, in entry order. -/
def allCriteriaNames (selectedCriteria : List String) (customCriteria : List CustomCriterion) :
    List String :=
  selectedCriteria ++
    (customCriteria.filter (fun c => trimStr c.name != "")).map (fun c => c.name)

/-- `toggleCriterion` from App.tsx lines 101-107: a deselected criterion is
appended at the end of the selection, a selected one is removed. -/
def toggleCriterion (prev : List String) (criterion : String) : List String :=
  if prev.contains criterion then prev.filter (fun c => c != criterion)
  else prev ++ [criterion]

/-- Modelled from the spec (for comparison only): the selected built-in
criteria "in catalog order", i.e. listed in the fixed order of
`AVAILABLE_CRITERIA` rather than in selection order. -/
def catalogOrderedSelection (selectedCriteria : List String) : List String :=
  AVAILABLE_CRITERIA.filter (fun c => selectedCriteria.contains c)

/-- Modelled from the spec (for comparison only): the names of the custom
criteria whose name is non-blank, in entry order. -/
def nonBlankCustomNames (customCriteria : List CustomCriterion) : List String :=
  (customCriteria.filter (fun c => !(trimStr c.name == ""))).map (fun c => c.name)

/-- `MAX_FILE_SIZE` from App.tsx line 8. -/
def MAX_FILE_SIZE : Nat := 4 * 1024 * 1024

/-- `MAX_WORD_COUNT` from App.tsx line 9. -/
def MAX_WORD_COUNT : Nat := 200

/-- The synchronous decision taken by `processFile` (App.tsx lines 31-48)
for a candidate file: either it is rejected with an error message (and no
payload is produced), or ingestion starts with the MIME type derived from
the file-name extension. -/
inductive ProcessOutcome
  | rejected (error : String)
  | ingest (mimeType : String)
deriving DecidableEq

/-- `processFile` from App.tsx lines 31-48, up to the start of the
asynchronous `FileReader`: the size check against `MAX_FILE_SIZE`, then
the extension-based MIME derivation (`name.split('.').pop()?.toLowerCase()`).
`declaredType` is the browser-reported `selectedFile.type`; the source
reads it into `mimeType` but overwrites it on every accepting path and
rejects otherwise, so it never influences the outcome. -/
def processFile (name : String) (size : Nat) (declaredType : String) : ProcessOutcome :=
  if size > MAX_FILE_SIZE then
    .rejected "File size exceeds 4MB limit. Please try a smaller file."
  else
    let ext := lowerStr ((splitOnDot name).getLastD "")
    if ext = "pdf" then .ingest "application/pdf"
    else if ext = "docx" then
      .ingest "application/vnd.openxmlformats-officedocument.wordprocessingml.document"
    else .rejected "Only PDF and DOCX files are supported."

/-- `countWords` from App.tsx lines 119-122: the number of nonempty
whitespace-delimited tokens of the trimmed string (`trimmed.split(/\s+/)`
on a trimmed nonempty string yields exactly the maximal nonempty
non-whitespace runs). -/
def countWords (s : String) : Nat :=
  let trimmed := trimStr s
  if trimmed = "" then 0
  else ((splitCharsWhen Char.isWhitespace trimmed.toList).filter (fun t => !t.isEmpty)).length

/-- The `field` argument of `handleCustomCriterionChange`: 'name' | 'keywords'. -/
inductive CriterionField
  | name
  | keywords
deriving DecidableEq

/-- `handleCustomCriterionChange` from App.tsx lines 124-139: a keywords
edit whose word count exceeds `MAX_WORD_COUNT` and also exceeds the
current word count of the addressed criterion is dropped; otherwise the
addressed criterion's field is updated (`prevValue` falls back to `""`
when the id is absent or the stored keywords are empty, exactly as
`find(...)?.keywords || ''` does). -/
def handleCustomCriterionChange (customCriteria : List CustomCriterion) (id : String)
    (field : CriterionField) (value : String) : List CustomCriterion :=
  match field with
  | .keywords =>
    let currentWords := countWords value
    let prevValue := (((customCriteria.find? (fun c => c.id == id)).map
      (fun c => c.keywords)).getD "")
    let prevWords := countWords prevValue
    if currentWords > MAX_WORD_COUNT ∧ currentWords > prevWords then customCriteria
    else customCriteria.map (fun c => if c.id == id then { c with keywords := value } else c)
  | .name =>
    customCriteria.map (fun c => if c.id == id then { c with name := value } else c)

/-- `ReviewState` from types.ts, with `feedback` holding the raw value the
orchestrator stored (see `analyzeOutcome`: the parsed JSON is stored
without validation, so the runtime value is an arbitrary `JValue`). -/
structure ReviewState where
  isLoading : Bool
  error : Option String
  feedback : Option JValue

/-- The `App` component state relevant to the claims (App.tsx lines 14-28);
the transient drag-highlight flag and the DOM input ref are presentation
details and not modelled. -/
structure AppState where
  category : ReviewCategory
  critiqueLevel : CritiqueLevel
  selectedCriteria : List String
  customCriteria : List CustomCriterion
  textInput : String
  file : Option FileData
  reviewState : ReviewState

/-- The two blank custom-criterion rows used both as the `useState` initial
value (App.tsx lines 17-20) and by `reset` (lines 181-184). -/
def initialCustomCriteria : List CustomCriterion :=
  [{ id := "1", name := "", keywords := "" },
   { id := "2", name := "", keywords := "" }]

/-- The initial `App` state from the `useState` initializers
(App.tsx lines 14-28). -/
def initialAppState : AppState :=
  { category := .UNDERGRADUATE,
    critiqueLevel := .Standard,
    selectedCriteria := [],
    customCriteria := initialCustomCriteria,
    textInput := "",
    file := none,
    reviewState := { isLoading := false, error := none, feedback := none } }

/-- `reset` from App.tsx lines 175-185: clears the review state, the text
input, the file (`clearFile`), the selected criteria, the critique level
and the custom criteria; it does not touch `category`. -/
def reset (s : AppState) : AppState :=
  { s with
    reviewState := { isLoading := false, error := none, feedback := none },
    textInput := "",
    file := none,
    selectedCriteria := [],
    critiqueLevel := .Standard,
    customCriteria := initialCustomCriteria }

/-- The synchronous state effect of `processFile` on the `App` state,
paired with the pending ingestion (the MIME type handed to the
asynchronous `FileReader`) when the file was accepted: a rejection only
writes the error message into `reviewState` (`{ ...prev, error }`), an
acceptance changes nothing synchronously and starts the read. -/
def processFileApply (s : AppState) (name : String) (size : Nat) (declaredType : String) :
    AppState × Option String :=
  match processFile name size declaredType with
  | .rejected err =>
    ({ s with reviewState := { s.reviewState with error := some err } }, none)
  | .ingest mime => (s, some mime)

/-- The pre-dispatch outcome of `handleReview` (App.tsx lines 141-152):
either it aborts with an error before any external call, or it dispatches
the request. -/
inductive ReviewStart
  | aborted (error : String)
  | dispatched
deriving DecidableEq

/-- The validation prefix of `handleReview` (App.tsx lines 141-152): first
the content check (`!textInput && !file`), then the criteria check
(`selectedCriteria.length === 0 && activeCustomCriteria.length === 0`);
each failure aborts with its own message before the external call. -/
def handleReview (textInput : String) (file : Option FileData)
    (selectedCriteria : List String) (customCriteria : List CustomCriterion) : ReviewStart :=
  if textInput = "" ∧ file = none then
    .aborted "Please upload a document or paste text to review."
  else
    let activeCustomCriteria := customCriteria.filter (fun c => trimStr c.name != "")
    if selectedCriteria = [] ∧ activeCustomCriteria = [] then
      .aborted "Please select at least one evaluation criterion or add a custom one."
    else .dispatched

/-- A syntactically valid feedback point (the `point` member carries a
citation tag, as the instruction demands). -/
def sampleFeedbackPoint : JValue :=
  .obj [("point", .str "Weak topic sentence [Page 1]")]

/-- A synthetic criterion result whose `feedbackPoints` array has `n`
entries. -/
def sampleReview (n : Nat) : JValue :=
  .obj
    [("criterion", .str "Clarity"),
     ("score", .str "Good"),
     ("visualBar", .str "■■■□□"),
     ("feedbackPoints", .arr (List.replicate n sampleFeedbackPoint))]

/-- A synthetic response whose single criterion result has `n` feedback
points. -/
def sampleResponse (n : Nat) : JValue :=
  .obj
    [("summary", .str "A solid draft."),
     ("overallScore", .num 80),
     ("reviews", .arr [sampleReview n])]

/-- The response text of a parseable external reply that has `summary` and
`overallScore` but no `reviews` member. -/
def missingReviewsText : String :=
  "\x7b\"summary\":\"ok\",\"overallScore\":70\x7d"

/-- The JSON value `JSON.parse` produces for `missingReviewsText`. -/
def missingReviewsValue : JValue :=
  .obj [("summary", .str "ok"), ("overallScore", .num 70)]

/-- A keywords edit of 201 one-letter words (word count 201 > `MAX_WORD_COUNT`). -/
def overlongKeywords : String :=
  String.mk (List.flatten (List.replicate 201 ['w', ' ']))

/-- Claim C1 (refuted by the code; the unchecked cast is a code bug): when
the external call returns text that parses as JSON, `analyzeDocument`
returns the parsed value as the successful feedback without checking any
required field (`JSON.parse(jsonText) as ReviewFeedback`,
geminiService.ts line 193).  At the concrete reply
`missingReviewsText`, whose parse `missingReviewsValue` has no `reviews`
member and violates the code's own declared `responseSchema`, the request
nevertheless succeeds. -/
theorem missing_reviews_accepted :
    analyzeOutcome (some missingReviewsText) (fun _ => Except.ok missingReviewsValue) =
      Except.ok missingReviewsValue
    ∧ missingReviewsValue.getField "reviews" = none
    ∧ validate 10 responseSchema missingReviewsValue = false :=
  ⟨rfl, rfl, by decide⟩

/-- Claim C2, counterexample: the claim says validating a synthetic
response against the serialized schema rejects one with 2 feedback points
per criterion; in fact the declared `responseSchema` has no cardinality
constraint on `feedbackPoints`, and a response whose single criterion
carries 2 feedback points validates successfully. -/
theorem two_feedback_points_validate :
    validate 10 responseSchema (sampleResponse 2) = true := by decide

/-- Claim C2, amended: the response schema produced by the prompt compiler
does not constrain the number of `feedbackPoints` entries: a synthetic
response with any number of feedback points per criterion validates
against the serialized schema (in particular 2, 3 and 4 are all
accepted); the exactly-3 requirement lives only in the instruction
text. -/
theorem feedback_point_count_unconstrained :
    ∀ n : Nat, validate 10 responseSchema (sampleResponse n) = true := by
  intro n
  have hfp : ∀ m : Nat,
      (List.replicate m sampleFeedbackPoint).all
        (fun e => validate 6
          (SchemaSpec.obj
            [("point", .str []), ("highlight", .str []), ("general_feedback", .bool)]
            ["point"]) e) = true := by
    intro m
    induction m with
    | zero => rfl
    | succ k ih => rw [List.replicate_succ, List.all_cons, ih]; rfl
  show (((List.replicate n sampleFeedbackPoint).all
      (fun e => validate 6
        (SchemaSpec.obj
          [("point", .str []), ("highlight", .str []), ("general_feedback", .bool)]
          ["point"]) e) && true) && true) && true = true
  rw [hfp n]
  decide

/-- Claim C3, counterexample: the claim says the criteria-name list embeds
the selected built-in criteria in the fixed catalog order.  But
`toggleCriterion` appends a newly selected criterion at the end, so the
selection state holds criteria in toggle order: toggling "Originality"
then "Clarity" yields the selection ["Originality", "Clarity"], and
`allCriteriaNames` embeds exactly that order, which differs from the
catalog order ["Clarity", "Originality"]. -/
theorem criteria_names_not_catalog_order :
    toggleCriterion (toggleCriterion [] "Originality") "Clarity" = ["Originality", "Clarity"]
    ∧ allCriteriaNames ["Originality", "Clarity"] initialCustomCriteria =
        ["Originality", "Clarity"]
    ∧ catalogOrderedSelection ["Originality", "Clarity"] = ["Clarity", "Originality"]
    ∧ allCriteriaNames ["Originality", "Clarity"] initialCustomCriteria ≠
        catalogOrderedSelection ["Originality", "Clarity"] ++
          nonBlankCustomNames initialCustomCriteria := by
  refine ⟨by decide, by decide, by decide, by decide⟩

/-- Claim C3, amended: the criteria-name list embedded in the compiled
instruction equals the selected built-in criteria in the order held by
the selection state (the order in which they were toggled on; a toggle of
an unselected criterion appends it at the end), followed by the names of
those custom criteria whose name is non-blank, in entry order. -/
theorem criteria_names_selection_order :
    (∀ sel customs, allCriteriaNames sel customs = sel ++ nonBlankCustomNames customs)
    ∧ (∀ (sel : List String) (c : String), sel.contains c = false →
        toggleCriterion sel c = sel ++ [c]) := by
  constructor
  · intro sel customs
    rfl
  · intro sel c h
    unfold toggleCriterion
    rw [if_neg (by rw [h]; exact Bool.false_ne_true)]

/-- Witness for `criteria_names_selection_order` at concrete inputs. -/
theorem criteria_names_selection_order_witness :
    allCriteriaNames ["Clarity"] [{ id := "1", name := "Methodology", keywords := "" }] =
      ["Clarity", "Methodology"]
    ∧ toggleCriterion ["Clarity"] "Originality" = ["Clarity", "Originality"] := by
  constructor
  · rw [criteria_names_selection_order.1]; decide
  · rw [criteria_names_selection_order.2 ["Clarity"] "Originality" (by decide)]
    rfl

/-- Claim C4: under the invariant that every stored keywords value is
within the 200-word cap (true of every reachable state: the initial
values are empty and every edit goes through this handler), a single
keywords edit never leaves a word count above `MAX_WORD_COUNT`, and an
edit whose word count exceeds the cap (necessarily not a net reduction,
since the pre-edit count is within the cap) leaves the criteria list
unchanged, so the edit is a no-op. -/
theorem keywords_edit_capped (cs : List CustomCriterion) (id value : String)
    (hinv : ∀ c ∈ cs, countWords c.keywords ≤ MAX_WORD_COUNT) :
    (∀ c ∈ handleCustomCriterionChange cs id CriterionField.keywords value,
      countWords c.keywords ≤ MAX_WORD_COUNT)
    ∧ (countWords value > MAX_WORD_COUNT →
        handleCustomCriterionChange cs id CriterionField.keywords value = cs) := by
  have hprev :
      countWords (((cs.find? (fun c => c.id == id)).map (fun c => c.keywords)).getD "") ≤
        MAX_WORD_COUNT := by
    cases hfind : cs.find? (fun c => c.id == id) with
    | none => decide
    | some c => exact hinv c (List.mem_of_find?_eq_some hfind)
  simp only [handleCustomCriterionChange]
  by_cases hcond :
      countWords value > MAX_WORD_COUNT ∧
        countWords value >
          countWords (((cs.find? (fun c => c.id == id)).map (fun c => c.keywords)).getD "")
  · rw [if_pos hcond]
    exact ⟨hinv, fun _ => rfl⟩
  · rw [if_neg hcond]
    constructor
    · intro c' hc'
      rcases List.mem_map.1 hc' with ⟨c, hc, hce⟩
      by_cases hid : c.id == id
      · rw [if_pos hid] at hce
        rw [← hce]
        rcases Decidable.not_and_iff_or_not.1 hcond with hle | hle
        · exact Nat.le_of_not_lt hle
        · exact le_trans (Nat.le_of_not_lt hle) hprev
      · rw [if_neg hid] at hce
        rw [← hce]
        exact hinv c hc
    · intro hgt
      exact absurd ⟨hgt, Nat.lt_of_le_of_lt hprev hgt⟩ hcond

set_option maxRecDepth 8000 in
/-- Witness for `keywords_edit_capped`: a 201-word edit to a criterion
holding a 1-word keywords value is dropped. -/
theorem keywords_edit_capped_witness :
    countWords overlongKeywords > MAX_WORD_COUNT
    ∧ handleCustomCriterionChange
        [{ id := "1", name := "", keywords := "a" }] "1" CriterionField.keywords
        overlongKeywords = [{ id := "1", name := "", keywords := "a" }] :=
  ⟨by decide,
   (keywords_edit_capped [{ id := "1", name := "", keywords := "a" }] "1" overlongKeywords
     (by decide)).2 (by decide)⟩

/-- When the size check passes, `processFile` decides by extension alone:
the outcome is one of the two ingestion MIME types or the
unsupported-type rejection. -/
theorem processFile_small_cases (name : String) (size : Nat) (declaredType : String)
    (h : size ≤ MAX_FILE_SIZE) :
    processFile name size declaredType = .ingest "application/pdf"
    ∨ processFile name size declaredType =
        .ingest "application/vnd.openxmlformats-officedocument.wordprocessingml.document"
    ∨ processFile name size declaredType = .rejected "Only PDF and DOCX files are supported." := by
  simp only [processFile]
  rw [if_neg (Nat.not_lt.mpr h)]
  by_cases h1 : lowerStr ((splitOnDot name).getLastD "") = "pdf"
  · rw [if_pos h1]
    exact Or.inl rfl
  · rw [if_neg h1]
    by_cases h2 : lowerStr ((splitOnDot name).getLastD "") = "docx"
    · rw [if_pos h2]
      exact Or.inr (Or.inl rfl)
    · rw [if_neg h2]
      exact Or.inr (Or.inr rfl)

/-- Claim C5: a file strictly larger than 4,194,304 bytes is rejected with
the distinct size-limit message (no payload is produced: the `rejected`
outcome carries only the error), a file of exactly 4,194,304 bytes never
triggers the size error, and with an acceptable extension it proceeds to
ingestion. -/
theorem size_limit_boundary :
    (∀ name size declaredType, size > MAX_FILE_SIZE →
      processFile name size declaredType =
        .rejected "File size exceeds 4MB limit. Please try a smaller file.")
    ∧ (∀ name declaredType,
        processFile name MAX_FILE_SIZE declaredType ≠
          .rejected "File size exceeds 4MB limit. Please try a smaller file.")
    ∧ (∀ declaredType,
        processFile "report.pdf" MAX_FILE_SIZE declaredType = .ingest "application/pdf") := by
  refine ⟨?_, ?_, ?_⟩
  · intro name size declaredType h
    simp only [processFile]
    rw [if_pos h]
  · intro name declaredType hcontra
    rcases processFile_small_cases name MAX_FILE_SIZE declaredType (le_refl _) with
      h | h | h <;> rw [h] at hcontra <;> exact absurd hcontra (by decide)
  · intro declaredType
    simp only [processFile]
    rw [if_neg (lt_irrefl _)]
    decide

/-- Witness for `size_limit_boundary`: one byte over the limit is rejected,
the limit itself is accepted. -/
theorem size_limit_boundary_witness :
    processFile "big.pdf" (MAX_FILE_SIZE + 1) "application/pdf" =
      .rejected "File size exceeds 4MB limit. Please try a smaller file."
    ∧ processFile "report.pdf" MAX_FILE_SIZE "" = .ingest "application/pdf" :=
  ⟨size_limit_boundary.1 "big.pdf" (MAX_FILE_SIZE + 1) "application/pdf"
     (Nat.lt_succ_self _),
   size_limit_boundary.2.2 ""⟩

/-- Claim C6: the outgoing MIME type is derived from the file-name
extension, case-insensitively, and never from the browser-reported
content type — the outcome is invariant in `declaredType`, `report.pdf`
is tagged `application/pdf`, `paper.DOCX` is tagged the OOXML
wordprocessing MIME type, and `notes.txt` is rejected with the
unsupported-type error. -/
theorem mime_from_extension :
    (∀ name size declaredType₁ declaredType₂,
      processFile name size declaredType₁ = processFile name size declaredType₂)
    ∧ (∀ size declaredType, size ≤ MAX_FILE_SIZE →
        processFile "report.pdf" size declaredType = .ingest "application/pdf"
        ∧ processFile "paper.DOCX" size declaredType =
            .ingest "application/vnd.openxmlformats-officedocument.wordprocessingml.document"
        ∧ processFile "notes.txt" size declaredType =
            .rejected "Only PDF and DOCX files are supported.") := by
  refine ⟨fun _ _ _ _ => rfl, ?_⟩
  intro size declaredType h
  refine ⟨?_, ?_, ?_⟩ <;>
    (simp only [processFile]; rw [if_neg (Nat.not_lt.mpr h)]; decide)

/-- Witness for `mime_from_extension` at concrete inputs, including two
different declared content types. -/
theorem mime_from_extension_witness :
    processFile "report.pdf" 100 "text/plain" = .ingest "application/pdf"
    ∧ processFile "paper.DOCX" 100 "" =
        .ingest "application/vnd.openxmlformats-officedocument.wordprocessingml.document"
    ∧ processFile "notes.txt" 100 "application/pdf" =
        .rejected "Only PDF and DOCX files are supported." :=
  ⟨(mime_from_extension.2 100 "text/plain" (by decide)).1,
   (mime_from_extension.2 100 "" (by decide)).2.1,
   (mime_from_extension.2 100 "application/pdf" (by decide)).2.2⟩

/-- Claim C7: `handleReview` aborts before any external call with the
content error whenever the text input is empty and no file is attached —
for every selection and custom-criteria state, so in particular also when
the criteria are missing too (the content check precedes the criteria
check) — and aborts with the criteria error whenever content is present
but no built-in criterion is selected and every custom criterion name is
blank. -/
theorem precheck_content_before_criteria :
    (∀ selectedCriteria customCriteria,
      handleReview "" none selectedCriteria customCriteria =
        .aborted "Please upload a document or paste text to review.")
    ∧ (∀ textInput file selectedCriteria customCriteria,
        (textInput ≠ "" ∨ file ≠ none) →
        selectedCriteria = [] →
        (∀ c ∈ customCriteria, trimStr c.name = "") →
        handleReview textInput file selectedCriteria customCriteria =
          .aborted "Please select at least one evaluation criterion or add a custom one.") := by
  constructor
  · intro selectedCriteria customCriteria
    rfl
  · intro textInput file selectedCriteria customCriteria hcontent hsel hblank
    simp only [handleReview]
    rw [if_neg (by rintro ⟨h1, h2⟩; rcases hcontent with h | h <;> contradiction)]
    have hfilter : customCriteria.filter (fun c => trimStr c.name != "") = [] :=
      List.filter_eq_nil_iff.mpr (fun c hc => by simp [hblank c hc])
    rw [if_pos ⟨hsel, hfilter⟩]

/-- Witness for `precheck_content_before_criteria`: an empty submission
with no criteria selected gets the content error, and a text submission
with no criteria gets the criteria error. -/
theorem precheck_content_before_criteria_witness :
    handleReview "" none [] initialCustomCriteria =
      .aborted "Please upload a document or paste text to review."
    ∧ handleReview "Some essay text." none [] initialCustomCriteria =
        .aborted "Please select at least one evaluation criterion or add a custom one." :=
  ⟨precheck_content_before_criteria.1 [] initialCustomCriteria,
   precheck_content_before_criteria.2 "Some essay text." none [] initialCustomCriteria
     (Or.inl (by decide)) rfl (by decide)⟩

/-- Claim C8: a failed request's surfaced message is classified exactly as
the claim says: a message containing a remote-procedure or transport
marker substring is rewritten to the try-a-smaller-file connection
message, any other nonempty message is surfaced verbatim, and a missing
or empty response text surfaces the no-response message (the thrown
"No response generated from the model." passes through classification
unchanged). -/
theorem error_message_classification :
    (∀ msg : String,
      (strIncludes msg "Rpc failed" = true ∨ strIncludes msg "xhr error" = true) →
      classifyError msg = connectionErrorMessage)
    ∧ (∀ msg : String, msg ≠ "" →
        strIncludes msg "Rpc failed" = false → strIncludes msg "xhr error" = false →
        classifyError msg = msg)
    ∧ (∀ parse,
        analyzeOutcome none parse = Except.error noResponseMessage
        ∧ analyzeOutcome (some "") parse = Except.error noResponseMessage) := by
  refine ⟨?_, ?_, ?_⟩
  · intro msg h
    have hne : msg ≠ "" := by
      rintro rfl
      rcases h with h | h <;> exact absurd h (by decide)
    simp only [classifyError]
    rw [if_pos ⟨hne, h⟩]
  · intro msg hne h1 h2
    simp only [classifyError]
    rw [if_neg (by rintro ⟨-, h | h⟩ <;> simp_all), if_pos hne]
  · intro parse
    exact ⟨congrArg Except.error (by decide), congrArg Except.error (by decide)⟩

/-- Witness for `error_message_classification`: a transport-marked message
is rewritten, an ordinary message is surfaced verbatim. -/
theorem error_message_classification_witness :
    classifyError "Rpc failed after 3 attempts" = connectionErrorMessage
    ∧ classifyError "Invalid API key" = "Invalid API key" :=
  ⟨error_message_classification.1 "Rpc failed after 3 attempts" (Or.inl (by decide)),
   error_message_classification.2.1 "Invalid API key" (by decide) (by decide) (by decide)⟩

/-- Claim C9: `reset` leaves the selected document category unchanged and
restores every other modelled component — text input, file, selected
criteria, custom criteria, critique level, and the review state's
feedback, error and loading flag — to its initial default. -/
theorem reset_frame_effect :
    ∀ s : AppState,
      (reset s).category = s.category
      ∧ reset s = { initialAppState with category := s.category } :=
  fun _ => ⟨rfl, rfl⟩

/-- Claim C10: whenever `processFile` rejects a candidate file, the only
state change is writing the error message into the review state
(`{ ...prev, error }`): the attached file, text input, configuration and
feedback are untouched, and no ingestion is started for the rejected
file. -/
theorem rejection_only_sets_error (s : AppState) (name : String) (size : Nat)
    (declaredType err : String)
    (h : processFile name size declaredType = .rejected err) :
    processFileApply s name size declaredType =
      ({ s with reviewState := { s.reviewState with error := some err } }, none) := by
  simp only [processFileApply, h]

/-- Witness for `rejection_only_sets_error`: rejecting `notes.txt` in the
initial state only records the unsupported-type error. -/
theorem rejection_only_sets_error_witness :
    processFileApply initialAppState "notes.txt" 10 "text/plain" =
      ({ initialAppState with
          reviewState := { initialAppState.reviewState with
            error := some "Only PDF and DOCX files are supported." } }, none) :=
  rejection_only_sets_error initialAppState "notes.txt" 10 "text/plain"
    "Only PDF and DOCX files are supported." (by decide)
